import Mathlib

/-!
Shallow embedding of the `scrt-strongbox` contract
(`src/contract.rs`, `src/state.rs`, `src/viewing_key.rs`, `src/msg.rs`).

Rust strings and byte slices are modelled as lists of byte values
(`List Nat`); the host-provided cryptographic primitives (SHA-256, the
seeded PRNG, base64 encoding) and the address-canonicalization service
are external collaborators of the contract, so they are abstracted as a
record of functions `CryptoOps` over which every theorem quantifies.
Storage (the config singleton plus the prefixed viewing-key store) is an
explicit `Storage` value threaded through each handler; a handler returns
the result of the call together with the storage left behind by the
primitive writes it actually performed, so that "checks happen before any
mutation" is an honest statement about the model and not an artifact of
host-level rollback.
-/

namespace Strongbox

abbrev Bytes := List Nat

/-- External collaborators (§6 of the spec): one-way hash, seeded PRNG
(`Prng::new(seed, entropy)` followed by a single `rand_bytes()` draw is
modelled as `prngRand seed entropy`), base64 encoding, and the injective
address-canonicalization service (`deps.api.addr_canonicalize`). -/
structure CryptoOps where
  sha256 : Bytes → Bytes
  prngRand : Bytes → Bytes → Bytes
  b64encode : Bytes → Bytes
  canon : Bytes → Bytes

/-- The block context used by key generation (`env.block.height`,
`env.block.time`). -/
structure Env where
  height : Nat
  time : Nat
deriving DecidableEq

-- Constants from `state.rs` and `viewing_key.rs`.
def INITIAL_SEED_LEN : Nat := 32
def ENTROPY_LEN : Nat := 20
def VIEWING_KEY_SIZE : Nat := 32

def strToBytes (s : String) : Bytes := s.toList.map Char.toNat

/-- The bytes of `VIEWING_KEY_PREFIX = "strongbox_key_"`. -/
def viewingKeyPrefixBytes : Bytes := strToBytes "strongbox_key_"

/-- Eight big-endian bytes of the block height (`u64::to_be_bytes`). -/
def u64be (n : Nat) : Bytes :=
  [n / 2 ^ 56 % 256, n / 2 ^ 48 % 256, n / 2 ^ 40 % 256, n / 2 ^ 32 % 256,
   n / 2 ^ 24 % 256, n / 2 ^ 16 % 256, n / 2 ^ 8 % 256, n % 256]

/-- Decimal rendering of the block time (`env.block.time.to_string().as_bytes()`). -/
def natDecimalBytes (n : Nat) : Bytes := strToBytes (toString n)

/-- Source `State` from `state.rs`: the config singleton. -/
structure State where
  owner : Bytes
  strongbox : Bytes
  serenity_seed : Bytes
  entropy_hashes : List Bytes
deriving DecidableEq

/-- The durable storage of the contract: the config singleton plus the
prefixed viewing-key store, the latter as an association list from
canonical viewer address to stored key hash. -/
structure Storage where
  state : State
  vkeys : List (Bytes × Bytes)
deriving DecidableEq

-- Association-list primitives modelling the prefixed key-value store.

def getAssoc : List (Bytes × Bytes) → Bytes → Option Bytes
  | [], _ => none
  | (k, v) :: rest, a => if k = a then some v else getAssoc rest a

def setAssoc : List (Bytes × Bytes) → Bytes → Bytes → List (Bytes × Bytes)
  | [], a, v => [(a, v)]
  | (k, w) :: rest, a, v =>
      if k = a then (a, v) :: rest else (k, w) :: setAssoc rest a v

def removeAssoc : List (Bytes × Bytes) → Bytes → List (Bytes × Bytes)
  | [], _ => []
  | (k, w) :: rest, a =>
      if k = a then removeAssoc rest a else (k, w) :: removeAssoc rest a

/-- Source `read_viewing_key` from `state.rs`. -/
def read_viewing_key (store : Storage) (owner : Bytes) : Option Bytes :=
  getAssoc store.vkeys owner

/-- Source `write_viewing_key` from `state.rs`: stores `sha_256(key.as_bytes())`
under the canonical address. -/
def write_viewing_key (c : CryptoOps) (store : Storage) (owner : Bytes)
    (key : Bytes) : Storage :=
  { store with vkeys := setAssoc store.vkeys owner (c.sha256 key) }

/-- Source `revoke_viewing_key` from `state.rs`. -/
def revoke_viewing_key (store : Storage) (owner : Bytes) : Storage :=
  { store with vkeys := removeAssoc store.vkeys owner }

-- `viewing_key.rs`

/-- The per-byte accumulator loop of the slice `ct_eq` of `subtle`: every
zipped byte pair is visited, the running flag is ANDed with the equality of that pair, and no iteration exits early. -/
def ct_eq_fold : List (Nat × Nat) → Bool → Bool
  | [], acc => acc
  | p :: rest, acc => ct_eq_fold rest (acc && decide (p.1 = p.2))

/-- Number of byte comparisons `ct_eq_fold` performs: one per element,
independent of the byte values. -/
def ct_eq_fold_steps : List (Nat × Nat) → Nat
  | [] => 0
  | _ :: rest => ct_eq_fold_steps rest + 1

/-- Source `ct_slice_compare` from `viewing_key.rs` (via `subtle::ConstantTimeEq`):
false on length mismatch, otherwise the non-short-circuiting fold over all
byte pairs. -/
def ct_slice_compare (s1 s2 : Bytes) : Bool :=
  if s1.length = s2.length then ct_eq_fold (s1.zip s2) true else false

/-- Cost model of `ct_slice_compare`: the number of byte comparisons it
executes (the length test on public lengths, then one comparison per
byte pair). -/
def ct_compare_cost (s1 s2 : Bytes) : Nat :=
  if s1.length = s2.length then ct_eq_fold_steps (s1.zip s2) else 0

/-- The `rng_entropy` buffer built inside `ViewingKey::new`: big-endian
block height, textual block time, the `sender` canonical address bytes,
then the caller-supplied entropy. -/
def ViewingKey.rngEntropy (env : Env) (sender : Bytes) (entropy : Bytes) :
    Bytes :=
  u64be env.height ++ natDecimalBytes env.time ++ sender ++ entropy

/-- Source `ViewingKey::new`: one `rand_bytes()` block drawn from
`Prng::new(seed, rng_entropy)`, hashed with SHA-256, prefixed and
base64-rendered. -/
def ViewingKey.new (c : CryptoOps) (env : Env) (sender : Bytes)
    (seed : Bytes) (entropy : Bytes) : Bytes :=
  let rng_entropy := ViewingKey.rngEntropy env sender entropy
  let rand_slice := c.prngRand seed rng_entropy
  let key := c.sha256 rand_slice
  viewingKeyPrefixBytes ++ c.b64encode key

/-- Source `ViewingKey::check_viewing_key`: hash the candidate, compare with
`ct_slice_compare`. -/
def ViewingKey.check_viewing_key (c : CryptoOps) (key : Bytes)
    (hashed_pw : Bytes) : Bool :=
  ct_slice_compare (c.sha256 key) hashed_pw

-- `contract.rs` handlers. Each returns (call result, storage after the
-- writes the handler performed); an error constructor carries the
-- error string of the handler.

/-- Source `instantiate`: validates the seed length, then stores the initial
config record. -/
def instantiate (c : CryptoOps) (sender : Bytes) (serenity_seed : Bytes) :
    Except String Storage :=
  if serenity_seed.length ≠ INITIAL_SEED_LEN then
    .error "You need to provide valid seed"
  else
    .ok { state :=
            { owner := c.canon sender
              strongbox := []
              serenity_seed := c.sha256 (c.b64encode serenity_seed)
              entropy_hashes := [] }
          vkeys := [] }

/-- Source `try_update_strongbox`: owner check inside `config.update`, then
overwrite the strongbox value. -/
def try_update_strongbox (c : CryptoOps) (store : Storage) (sender : Bytes)
    (strongbox : Bytes) : Except String Unit × Storage :=
  let signer := c.canon sender
  if signer ≠ store.state.owner then (.error "You are not allowed", store)
  else (.ok (), { store with state := { store.state with strongbox := strongbox } })

/-- Source `try_create_viewing_key`: entropy-length check, owner check,
duplicate-entropy check (inside `config.update`, which aborts without
saving on error), then push the entropy hash, generate the key from the
stored seed and the block context with the **sender** address, and store
the hash of the key under the canonical address of the viewer. -/
def try_create_viewing_key (c : CryptoOps) (env : Env) (store : Storage)
    (sender : Bytes) (entropy : Bytes) (viewer : Bytes) :
    Except String Bytes × Storage :=
  if entropy.length ≠ ENTROPY_LEN then
    (.error "You need to provide valid entropy", store)
  else
    let sender_c := c.canon sender
    if sender_c ≠ store.state.owner then
      (.error "You are not allowed", store)
    else
      let entropy_hash := c.sha256 entropy
      if entropy_hash ∈ store.state.entropy_hashes then
        (.error "You need to use another entropy", store)
      else
        let store1 : Storage :=
          { store with state :=
              { store.state with
                  entropy_hashes := store.state.entropy_hashes ++ [entropy_hash] } }
        let key := ViewingKey.new c env sender_c store.state.serenity_seed entropy
        (.ok key, write_viewing_key c store1 (c.canon viewer) key)

/-- Source `try_transfer_ownership`: owner check inside `config.update`, then
overwrite the owner. -/
def try_transfer_ownership (c : CryptoOps) (store : Storage) (sender : Bytes)
    (new_owner : Bytes) : Except String Unit × Storage :=
  let signer := c.canon sender
  let new_owner_addr := c.canon new_owner
  if signer ≠ store.state.owner then (.error "You are not allowed", store)
  else (.ok (), { store with state := { store.state with owner := new_owner_addr } })

/-- Source `try_revoke_viewing_key`: owner check, existence check, then remove
the stored hash. -/
def try_revoke_viewing_key (c : CryptoOps) (store : Storage) (sender : Bytes)
    (viewer : Bytes) : Except String Unit × Storage :=
  let sender_c := c.canon sender
  if sender_c ≠ store.state.owner then (.error "You are not allowed", store)
  else
    let viewer_addr := c.canon viewer
    match read_viewing_key store viewer_addr with
    | none => (.error "Viewing key not exists", store)
    | some _ => (.ok (), revoke_viewing_key store viewer_addr)

/-- Source `query_strongbox`: read the stored strongbox value. -/
def query_strongbox (store : Storage) : Bytes := store.state.strongbox

/-- The candidate loop of `query`: for each claimed address, if no hash
is stored the dummy all-zero verification runs and its result is
discarded; if a hash is stored and the key verifies, the strongbox is
returned; otherwise the loop continues, and falling off the end yields
the single uniform error. -/
def queryLoop (c : CryptoOps) (store : Storage) (key : Bytes) :
    List Bytes → Except String Bytes
  | [] => .error "Your viewing key does not matched"
  | address :: rest =>
      let canonical := c.canon address
      match read_viewing_key store canonical with
      | none =>
          let _dummy :=
            ViewingKey.check_viewing_key c key (List.replicate VIEWING_KEY_SIZE 0)
          queryLoop c store key rest
      | some expected =>
          if ViewingKey.check_viewing_key c key expected then
            .ok (query_strongbox store)
          else queryLoop c store key rest

/-- Source `query` on a GetStrongbox message with fields behalf and key:
`get_validation_params` supplies the single candidate pair. -/
def query (c : CryptoOps) (store : Storage) (behalf : Bytes) (key : Bytes) :
    Except String Bytes :=
  queryLoop c store key [behalf]

/-- Source `ExecuteMsg` from `msg.rs` (the unused `padding` field included). -/
inductive ExecuteMsg where
  | updateStrongbox (strongbox : Bytes)
  | createViewingKey (viewer : Bytes) (entropy : Bytes) (padding : Option Bytes)
  | transferOwnership (newOwner : Bytes)
  | revokeViewingKey (viewer : Bytes)

/-- The `execute` dispatcher. -/
def execute (c : CryptoOps) (env : Env) (store : Storage) (sender : Bytes) :
    ExecuteMsg → Except String (Option Bytes) × Storage
  | .updateStrongbox s =>
      let r := try_update_strongbox c store sender s
      (r.1.map fun _ => none, r.2)
  | .createViewingKey viewer entropy _ =>
      let r := try_create_viewing_key c env store sender entropy viewer
      (r.1.map some, r.2)
  | .transferOwnership newOwner =>
      let r := try_transfer_ownership c store sender newOwner
      (r.1.map fun _ => none, r.2)
  | .revokeViewingKey viewer =>
      let r := try_revoke_viewing_key c store sender viewer
      (r.1.map fun _ => none, r.2)

/-- A post-initialization contract operation: one of the four execute
messages or the read-only query (queries run on `Deps`, i.e. immutable
storage, so they pass the storage through unchanged). -/
inductive ContractOp where
  | exec (msg : ExecuteMsg)
  | getStrongbox (behalf : Bytes) (key : Bytes)

/-- One post-initialization step of the contract. -/
def step (c : CryptoOps) (env : Env) (store : Storage) (sender : Bytes) :
    ContractOp → Except String (Option Bytes) × Storage
  | .exec msg => execute c env store sender msg
  | .getStrongbox behalf key => ((query c store behalf key).map some, store)

-- Concrete instantiations of the external collaborators, used to
-- evaluate the theorems on closed inputs.

/-- Degenerate collaborators: every primitive is (essentially) the
identity. -/
def cId : CryptoOps :=
  { sha256 := fun l => l
    prngRand := fun s e => s ++ e
    b64encode := fun l => l
    canon := fun l => l }

/-- Injective collaborators: each primitive prepends a distinct tag, so
hashing, encoding and the seeded PRNG are all injective. -/
def cInj : CryptoOps :=
  { sha256 := fun l => 0 :: l
    prngRand := fun s e => s ++ 255 :: e
    b64encode := fun l => 1 :: l
    canon := fun l => l }

def env0 : Env := ⟨0, 0⟩

def store0 : Storage :=
  { state :=
      { owner := [1]
        strongbox := strToBytes "hello"
        serenity_seed := [9]
        entropy_hashes := [] }
    vkeys := [] }

def e20 : Bytes := List.replicate 20 7

def e20b : Bytes := List.replicate 20 8

-- Association-list lemmas.

lemma getAssoc_setAssoc_self (m : List (Bytes × Bytes)) (a v : Bytes) :
    getAssoc (setAssoc m a v) a = some v := by
  induction m with
  | nil => simp [setAssoc, getAssoc]
  | cons p rest ih =>
      obtain ⟨k, w⟩ := p
      by_cases h : k = a
      · simp [setAssoc, getAssoc, h]
      · simp [setAssoc, getAssoc, h, ih]

lemma getAssoc_removeAssoc_self (m : List (Bytes × Bytes)) (a : Bytes) :
    getAssoc (removeAssoc m a) a = none := by
  induction m with
  | nil => simp [removeAssoc, getAssoc]
  | cons p rest ih =>
      obtain ⟨k, w⟩ := p
      by_cases h : k = a
      · simp [removeAssoc, h, ih]
      · simp [removeAssoc, getAssoc, h, ih]

-- A successful query always returns the stored strongbox value.

lemma queryLoop_ok (c : CryptoOps) (store : Storage) (key : Bytes) :
    ∀ (addrs : List Bytes) (r : Bytes),
      queryLoop c store key addrs = .ok r → r = store.state.strongbox := by
  intro addrs
  induction addrs with
  | nil => intro r h; simp [queryLoop] at h
  | cons a rest ih =>
      intro r h
      rw [queryLoop] at h
      rcases hrv : read_viewing_key store (c.canon a) with _ | expected
      · rw [hrv] at h
        exact ih r h
      · rw [hrv] at h
        by_cases hc : ViewingKey.check_viewing_key c key expected = true
        · simp [hc, query_strongbox] at h
          exact h.symm
        · simp [Bool.of_not_eq_true hc] at h
          exact ih r h

-- Shared query lemmas.

lemma query_read_none (c : CryptoOps) (store : Storage) (behalf key : Bytes)
    (h : read_viewing_key store (c.canon behalf) = none) :
    query c store behalf key = .error "Your viewing key does not matched" := by
  simp [query, queryLoop, h]

lemma query_check_false (c : CryptoOps) (store : Storage)
    (behalf key h0 : Bytes)
    (h : read_viewing_key store (c.canon behalf) = some h0)
    (hc : ViewingKey.check_viewing_key c key h0 = false) :
    query c store behalf key = .error "Your viewing key does not matched" := by
  simp [query, queryLoop, h, hc]

/-- Claim C1: whenever authentication fails in `query` — no stored hash
for the claimed identity (including after a revocation), or a stored
hash the claimed key does not verify against — the query returns the
single uniform error string, never an error distinguishing the cases;
and when no hash is stored the outcome is the failure regardless of the
result of the placeholder verification call (the theorem holds for every
`CryptoOps`, hence for every value that call can take; its result is
discarded). -/
theorem query_uniform_error (c : CryptoOps) (store : Storage)
    (behalf key : Bytes) :
    (∀ e, query c store behalf key = .error e →
        e = "Your viewing key does not matched")
    ∧ (read_viewing_key store (c.canon behalf) = none →
        query c store behalf key = .error "Your viewing key does not matched")
    ∧ (∀ h, read_viewing_key store (c.canon behalf) = some h →
        ViewingKey.check_viewing_key c key h = false →
        query c store behalf key = .error "Your viewing key does not matched") := by
  rcases hrv : read_viewing_key store (c.canon behalf) with _ | expected
  · refine ⟨?_, ?_, ?_⟩
    · intro e he
      simp [query, queryLoop, hrv] at he
      exact he.symm
    · intro _
      exact query_read_none c store behalf key hrv
    · intro h hh
      exact absurd hh (by simp)
  · refine ⟨?_, ?_, ?_⟩
    · intro e he
      by_cases hc : ViewingKey.check_viewing_key c key expected = true
      · simp [query, queryLoop, hrv, hc] at he
      · simp [query, queryLoop, hrv, Bool.of_not_eq_true hc] at he
        exact he.symm
    · intro hn
      exact absurd hn (by simp)
    · intro h hh hc
      have hexp : expected = h := by injection hh
      exact query_check_false c store behalf key expected hrv
        (by rw [hexp]; exact hc)

/-- Witness for C1 at a concrete input: an identity with no stored hash
fails with the uniform error. -/
theorem query_uniform_error_witness :
    query cId store0 [5] [0] = .error "Your viewing key does not matched" :=
  (query_uniform_error cId store0 [5] [0]).2.1 (by rfl)

/-- Claim C7: a successful `UpdateStrongbox(V)` by the owner followed by
a successful `GetStrongbox` (no intervening update) returns exactly `V`. -/
theorem update_then_get (c : CryptoOps) (store s1 : Storage)
    (sender V behalf key r : Bytes)
    (h1 : try_update_strongbox c store sender V = (.ok (), s1))
    (h2 : query c s1 behalf key = .ok r) : r = V := by
  have hq := queryLoop_ok c s1 key [behalf] r h2
  by_cases h : c.canon sender = store.state.owner
  · rw [try_update_strongbox] at h1
    simp [h] at h1
    rw [hq, ← h1]
  · rw [try_update_strongbox] at h1
    simp [h] at h1

/-- Witness for C7 at a concrete input: the owner stores "vault", a
viewer with a matching stored hash reads exactly that value back. -/
theorem update_then_get_witness :
    strToBytes "vault" = strToBytes "vault" :=
  update_then_get cId { store0 with vkeys := [([2], [3, 4])] }
    (try_update_strongbox cId { store0 with vkeys := [([2], [3, 4])] } [1]
      (strToBytes "vault")).2
    [1] (strToBytes "vault") [2] [3, 4] (strToBytes "vault")
    (by rfl) (by rfl)

/-- Claim C10 (implicit): the generated viewing key does not depend on
the `viewer` argument at all — two `CreateViewingKey` calls differing
only in the viewer return the identical call result (in particular the
identical key string on success). -/
theorem create_vk_viewer_independent (c : CryptoOps) (env : Env)
    (store : Storage) (sender entropy v1 v2 : Bytes) :
    (try_create_viewing_key c env store sender entropy v1).1
      = (try_create_viewing_key c env store sender entropy v2).1 := by
  simp only [try_create_viewing_key]
  split
  · rfl
  · split
    · rfl
    · split
      · rfl
      · rfl

/-- Claim C2: in `CreateViewingKey` the entropy-length and
duplicate-entropy checks (and the owner check) precede any state
mutation, and the call is all-or-nothing: on any failure the storage the
handler leaves behind is exactly the input storage, and on success the
entropy hash is appended, the credential hash of the viewer is stored, and no
other config field changes. -/
theorem create_vk_all_or_nothing (c : CryptoOps) (env : Env) (store : Storage)
    (sender entropy viewer : Bytes) :
    (∀ e, (try_create_viewing_key c env store sender entropy viewer).1 = .error e →
        (try_create_viewing_key c env store sender entropy viewer).2 = store)
    ∧ (∀ k, (try_create_viewing_key c env store sender entropy viewer).1 = .ok k →
        (try_create_viewing_key c env store sender entropy viewer).2.state.owner
            = store.state.owner
        ∧ (try_create_viewing_key c env store sender entropy viewer).2.state.strongbox
            = store.state.strongbox
        ∧ (try_create_viewing_key c env store sender entropy viewer).2.state.serenity_seed
            = store.state.serenity_seed
        ∧ (try_create_viewing_key c env store sender entropy viewer).2.state.entropy_hashes
            = store.state.entropy_hashes ++ [c.sha256 entropy]
        ∧ read_viewing_key (try_create_viewing_key c env store sender entropy viewer).2
            (c.canon viewer) = some (c.sha256 k)) := by
  by_cases h1 : entropy.length = ENTROPY_LEN
  · by_cases h2 : c.canon sender = store.state.owner
    · by_cases h3 : c.sha256 entropy ∈ store.state.entropy_hashes
      · constructor
        · intro e _
          simp [try_create_viewing_key, h1, h2, h3]
        · intro k hk
          simp [try_create_viewing_key, h1, h2, h3] at hk
      · constructor
        · intro e he
          simp [try_create_viewing_key, h1, h2, h3] at he
        · intro k hk
          have hkey : k = ViewingKey.new c env store.state.owner
              store.state.serenity_seed entropy := by
            simp [try_create_viewing_key, h1, h2, h3] at hk
            exact hk.symm
          subst hkey
          simp [try_create_viewing_key, h1, h2, h3, write_viewing_key,
            read_viewing_key, getAssoc_setAssoc_self]
    · constructor
      · intro e _
        simp [try_create_viewing_key, h1, h2]
      · intro k hk
        simp [try_create_viewing_key, h1, h2] at hk
  · constructor
    · intro e _
      simp [try_create_viewing_key, h1]
    · intro k hk
      simp [try_create_viewing_key, h1] at hk

/-- Witness for C2 at a concrete input: a failing call (wrong entropy
length) leaves the storage exactly as it was. -/
theorem create_vk_all_or_nothing_witness :
    (try_create_viewing_key cId env0 store0 [1] [] [2]).2 = store0 :=
  (create_vk_all_or_nothing cId env0 store0 [1] [] [2]).1
    "You need to provide valid entropy" (by rfl)

/-- Counterexample to claim C3 as stated: a non-owner calling
`CreateViewingKey` with entropy of the wrong length gets the validation
error, not the authorization error — so not every owner-gated operation
fails with the authorization error "for all inputs". -/
theorem nonowner_rejected_cex :
    cId.canon [2] ≠ store0.state.owner
    ∧ (try_create_viewing_key cId env0 store0 [2] [] [3]).1
        = .error "You need to provide valid entropy"
    ∧ "You need to provide valid entropy" ≠ "You are not allowed" :=
  ⟨by decide, by rfl, by decide⟩

/-- Claim C3 amended: for every caller whose canonical identity differs
from the stored owner, every owner-gated operation fails and leaves the
entire state (configuration record and viewing-key map) unchanged; the
error is the authorization error in every case except `CreateViewingKey`
with entropy of the wrong length, where the entropy-length check fires
first and the validation error is returned instead. -/
theorem nonowner_rejected (c : CryptoOps) (env : Env) (store : Storage)
    (sender sbox newOwner viewer entropy viewer2 : Bytes)
    (hne : c.canon sender ≠ store.state.owner) :
    try_update_strongbox c store sender sbox
        = (.error "You are not allowed", store)
    ∧ try_transfer_ownership c store sender newOwner
        = (.error "You are not allowed", store)
    ∧ try_revoke_viewing_key c store sender viewer
        = (.error "You are not allowed", store)
    ∧ (entropy.length = ENTROPY_LEN →
        try_create_viewing_key c env store sender entropy viewer2
          = (.error "You are not allowed", store))
    ∧ (entropy.length ≠ ENTROPY_LEN →
        try_create_viewing_key c env store sender entropy viewer2
          = (.error "You need to provide valid entropy", store)) := by
  refine ⟨?_, ?_, ?_, ?_, ?_⟩
  · simp [try_update_strongbox, hne]
  · simp [try_transfer_ownership, hne]
  · simp [try_revoke_viewing_key, hne]
  · intro hl
    simp [try_create_viewing_key, hl, hne]
  · intro hl
    simp [try_create_viewing_key, hl]

/-- Witness for the amended C3 at a concrete input: a non-owner is
rejected by `UpdateStrongbox` with the authorization error and by
`CreateViewingKey` (with well-formed entropy) likewise, with the storage
unchanged. -/
theorem nonowner_rejected_witness :
    try_update_strongbox cId store0 [2] [7]
        = (.error "You are not allowed", store0)
    ∧ try_create_viewing_key cId env0 store0 [2] e20 [3]
        = (.error "You are not allowed", store0) := by
  have h := nonowner_rejected cId env0 store0 [2] [7] [4] [5] e20 [3] (by decide)
  exact ⟨h.1, h.2.2.2.1 (by decide)⟩

-- Constant-time comparison lemmas.

lemma ct_eq_fold_acc (l : List (Nat × Nat)) (acc : Bool) :
    ct_eq_fold l acc = (acc && ct_eq_fold l true) := by
  induction l generalizing acc with
  | nil => simp [ct_eq_fold]
  | cons p rest ih =>
      simp only [ct_eq_fold]
      rw [ih, ih (true && decide (p.1 = p.2))]
      simp [Bool.and_assoc]

lemma ct_cons (a b : Nat) (s t : Bytes) :
    ct_slice_compare (a :: s) (b :: t)
      = (decide (a = b) && ct_slice_compare s t) := by
  by_cases hl : s.length = t.length
  · simp only [ct_slice_compare, List.length_cons, hl, if_pos rfl, if_true,
      List.zip_cons_cons, ct_eq_fold]
    rw [ct_eq_fold_acc]
    simp [List.zip]
  · have : ¬ (s.length + 1 = t.length + 1) := by omega
    simp [ct_slice_compare, hl, this]

lemma ct_slice_compare_iff :
    ∀ s1 s2 : Bytes, (ct_slice_compare s1 s2 = true ↔ s1 = s2) := by
  intro s1
  induction s1 with
  | nil =>
      intro s2
      cases s2 with
      | nil => simp [ct_slice_compare, ct_eq_fold]
      | cons b t => simp [ct_slice_compare]
  | cons a s ih =>
      intro s2
      cases s2 with
      | nil => simp [ct_slice_compare]
      | cons b t => simp [ct_cons, ih]

lemma ct_eq_fold_steps_eq_length (l : List (Nat × Nat)) :
    ct_eq_fold_steps l = l.length := by
  induction l with
  | nil => rfl
  | cons p rest ih => simp [ct_eq_fold_steps, ih]

/-- Claim C5: `check_viewing_key` hashes the candidate and compares the
digest to the stored hash with the non-short-circuiting `ct_slice_compare`;
that comparison decides equality of the byte sequences, and in the cost
model (number of per-byte comparison operations executed, one per zipped
pair with no early exit) the cost depends only on the input lengths —
never on whether, or at which byte position, the sequences differ. -/
theorem check_vk_constant_time (c : CryptoOps) (key hashed : Bytes) :
    ViewingKey.check_viewing_key c key hashed
      = ct_slice_compare (c.sha256 key) hashed
    ∧ (∀ s1 s2 : Bytes, (ct_slice_compare s1 s2 = true ↔ s1 = s2))
    ∧ (∀ s1 s2 t1 t2 : Bytes, s1.length = t1.length → s2.length = t2.length →
        ct_compare_cost s1 s2 = ct_compare_cost t1 t2) := by
  refine ⟨rfl, ct_slice_compare_iff, ?_⟩
  intro s1 s2 t1 t2 h1 h2
  simp [ct_compare_cost, ct_eq_fold_steps_eq_length, h1, h2]

/-- Witness for C5 at concrete inputs: the comparison cost of two pairs
of equal-length byte strings, differing at different positions, is equal. -/
theorem check_vk_constant_time_witness :
    ct_compare_cost [1, 2] [3, 4] = ct_compare_cost [5, 6] [7, 8] :=
  (check_vk_constant_time cId [0] [0]).2.2 [1, 2] [3, 4] [5, 6] [7, 8]
    (by decide) (by decide)

/-- Claim C8: `RevokeViewingKey(viewer)` called by the owner fails with
the not-found error exactly when no credential hash is stored for the
viewer; on success the stored hash is removed, and afterwards any key
for that viewer (in particular a previously valid one) fails
`GetStrongbox` with the same uniform error an unknown identity gets. -/
theorem revoke_vk_spec (c : CryptoOps) (store : Storage) (sender viewer : Bytes)
    (hown : c.canon sender = store.state.owner) :
    ((try_revoke_viewing_key c store sender viewer).1
        = .error "Viewing key not exists"
      ↔ read_viewing_key store (c.canon viewer) = none)
    ∧ ((try_revoke_viewing_key c store sender viewer).1 = .ok () →
        read_viewing_key (try_revoke_viewing_key c store sender viewer).2
            (c.canon viewer) = none
        ∧ ∀ key, query c (try_revoke_viewing_key c store sender viewer).2
            viewer key = .error "Your viewing key does not matched") := by
  rcases hrv : read_viewing_key store (c.canon viewer) with _ | h0
  · constructor
    · simp [try_revoke_viewing_key, hown, hrv]
    · intro hk
      simp [try_revoke_viewing_key, hown, hrv] at hk
  · constructor
    · simp [try_revoke_viewing_key, hown, hrv]
    · intro _
      have hga : getAssoc store.vkeys (c.canon viewer) = some h0 := hrv
      have hnone : read_viewing_key
          (try_revoke_viewing_key c store sender viewer).2 (c.canon viewer)
            = none := by
        simp [try_revoke_viewing_key, hown, revoke_viewing_key,
          read_viewing_key, hga, getAssoc_removeAssoc_self]
      exact ⟨hnone, fun key => query_read_none c _ viewer key hnone⟩

/-- Witness for C8 at a concrete input: the owner revokes an existing
key; afterwards the hash is gone and the previously matching key gets
the uniform error. -/
theorem revoke_vk_spec_witness :
    read_viewing_key
        (try_revoke_viewing_key cId { store0 with vkeys := [([2], [3, 4])] }
          [1] [2]).2 (cId.canon [2]) = none
    ∧ query cId
        (try_revoke_viewing_key cId { store0 with vkeys := [([2], [3, 4])] }
          [1] [2]).2 [2] [3, 4]
        = .error "Your viewing key does not matched" := by
  have h := (revoke_vk_spec cId { store0 with vkeys := [([2], [3, 4])] }
    [1] [2] (by decide)).2 (by rfl)
  exact ⟨h.1, h.2 [3, 4]⟩

/-- Modelled from the spec wording of claim C4 (§4.1): the entropy
buffer built with the canonical identity bytes of the *viewer* for whom
the key is minted, for comparison with `ViewingKey.rngEntropy`, which
the source code builds from the message sender. -/
def specRngEntropyWithViewer (c : CryptoOps) (env : Env)
    (viewer entropy : Bytes) : Bytes :=
  u64be env.height ++ natDecimalBytes env.time ++ c.canon viewer ++ entropy

/-- Modelled from the spec wording of claim C4: the key that would
result from feeding the viewer-based buffer to the generator. -/
def specKeyWithViewer (c : CryptoOps) (env : Env)
    (viewer seed entropy : Bytes) : Bytes :=
  viewingKeyPrefixBytes ++
    c.b64encode (c.sha256 (c.prngRand seed
      (specRngEntropyWithViewer c env viewer entropy)))

/-- Counterexample to claim C4 as stated: when the owner `[1]` mints a
key for viewer `[2]`, the buffer the code feeds to the generator carries
the identity bytes of the sender, and differs from the buffer the claim
describes (built from the identity bytes of the viewer); with injectivity-
preserving concrete primitives the resulting keys differ too. -/
theorem create_vk_entropy_buffer_cex :
    (try_create_viewing_key cId env0 store0 [1] e20 [2]).1
        = .ok (ViewingKey.new cId env0 (cId.canon [1])
            store0.state.serenity_seed e20)
    ∧ ViewingKey.rngEntropy env0 (cId.canon [1]) e20
        ≠ specRngEntropyWithViewer cId env0 [2] e20
    ∧ ViewingKey.new cId env0 (cId.canon [1]) store0.state.serenity_seed e20
        ≠ specKeyWithViewer cId env0 [2] store0.state.serenity_seed e20 :=
  ⟨by rfl, by decide, by decide⟩

/-- Claim C4 amended: when `CreateViewingKey` generates a key, the
entropy buffer fed (with the stored seed) to the seeded generator is
exactly the concatenation of the big-endian block height, the textual
block time, the canonical identity bytes of the **calling owner (the
message sender)** — not the viewer — and the caller-supplied entropy
bytes; exactly one block of random output is drawn, hashed once, and
rendered as the prefixed encoded key. -/
theorem create_vk_entropy_buffer (c : CryptoOps) (env : Env)
    (store : Storage) (sender entropy viewer k : Bytes)
    (hk : (try_create_viewing_key c env store sender entropy viewer).1
        = .ok k) :
    k = viewingKeyPrefixBytes ++
          c.b64encode (c.sha256 (c.prngRand store.state.serenity_seed
            (u64be env.height ++ natDecimalBytes env.time
              ++ c.canon sender ++ entropy))) := by
  by_cases h1 : entropy.length = ENTROPY_LEN
  · by_cases h2 : c.canon sender = store.state.owner
    · by_cases h3 : c.sha256 entropy ∈ store.state.entropy_hashes
      · simp [try_create_viewing_key, h1, h2, h3] at hk
      · simp [try_create_viewing_key, h1, h2, h3] at hk
        rw [← hk]
        simp [ViewingKey.new, ViewingKey.rngEntropy, h2]
    · simp [try_create_viewing_key, h1, h2] at hk
  · simp [try_create_viewing_key, h1] at hk

/-- Witness for the amended C4 at a concrete input. -/
theorem create_vk_entropy_buffer_witness :
    ViewingKey.new cId env0 [1] [9] e20
      = viewingKeyPrefixBytes ++
          cId.b64encode (cId.sha256 (cId.prngRand [9]
            (u64be 0 ++ natDecimalBytes 0 ++ cId.canon [1] ++ e20))) :=
  create_vk_entropy_buffer cId env0 store0 [1] e20 [2]
    (ViewingKey.new cId env0 [1] [9] e20) (by rfl)

/-- Claim C6: after the owner mints a key with entropy `E1`, minting
again with the same entropy (any viewer) fails with the conflict error,
while minting with a different entropy `E2` succeeds, and — under
injectivity of the hash, the encoder, and the seeded generator, the
idealization of "with overwhelming probability" — the two minted keys
have differing stored hashes. -/
theorem mint_entropy_replay (c : CryptoOps) (env : Env) (store : Storage)
    (sender v1 v2 v3 E1 E2 : Bytes)
    (hown : c.canon sender = store.state.owner)
    (hl1 : E1.length = ENTROPY_LEN) (hl2 : E2.length = ENTROPY_LEN)
    (hm1 : c.sha256 E1 ∉ store.state.entropy_hashes)
    (hm2 : c.sha256 E2 ∉ store.state.entropy_hashes)
    (hE : E1 ≠ E2)
    (hsha : Function.Injective c.sha256)
    (hb64 : Function.Injective c.b64encode)
    (hprng : Function.Injective (c.prngRand store.state.serenity_seed)) :
    (try_create_viewing_key c env store sender E1 v1).1
        = .ok (ViewingKey.new c env store.state.owner
            store.state.serenity_seed E1)
    ∧ (try_create_viewing_key c env
          (try_create_viewing_key c env store sender E1 v1).2 sender E1 v2).1
        = .error "You need to use another entropy"
    ∧ (try_create_viewing_key c env
          (try_create_viewing_key c env store sender E1 v1).2 sender E2 v3).1
        = .ok (ViewingKey.new c env store.state.owner
            store.state.serenity_seed E2)
    ∧ c.sha256 (ViewingKey.new c env store.state.owner
          store.state.serenity_seed E1)
        ≠ c.sha256 (ViewingKey.new c env store.state.owner
          store.state.serenity_seed E2) := by
  have hfst : try_create_viewing_key c env store sender E1 v1
      = (.ok (ViewingKey.new c env store.state.owner
            store.state.serenity_seed E1),
         write_viewing_key c
           { store with state :=
               { store.state with entropy_hashes :=
                   store.state.entropy_hashes ++ [c.sha256 E1] } }
           (c.canon v1)
           (ViewingKey.new c env store.state.owner
             store.state.serenity_seed E1)) := by
    simp [try_create_viewing_key, hl1, hown, hm1]
  have hsha12 : c.sha256 E1 ≠ c.sha256 E2 := fun h => hE (hsha h)
  refine ⟨by rw [hfst], ?_, ?_, ?_⟩
  · rw [hfst]
    simp [try_create_viewing_key, hl1, hown, write_viewing_key]
  · rw [hfst]
    simp [try_create_viewing_key, hl2, hown, write_viewing_key,
      List.mem_append, hm2, Ne.symm hsha12]
  · intro hcontra
    have hk : ViewingKey.new c env store.state.owner
          store.state.serenity_seed E1
        = ViewingKey.new c env store.state.owner
          store.state.serenity_seed E2 := hsha hcontra
    simp only [ViewingKey.new, ViewingKey.rngEntropy] at hk
    have hb : c.b64encode (c.sha256 (c.prngRand store.state.serenity_seed
          (u64be env.height ++ natDecimalBytes env.time
            ++ store.state.owner ++ E1)))
        = c.b64encode (c.sha256 (c.prngRand store.state.serenity_seed
          (u64be env.height ++ natDecimalBytes env.time
            ++ store.state.owner ++ E2))) := List.append_cancel_left hk
    have hbuf := hprng (hsha (hb64 hb))
    have hstep1 := List.append_cancel_left hbuf
    exact hE hstep1

/-- Witness for C6 at concrete inputs, with injective concrete
primitives. -/
theorem mint_entropy_replay_witness :
    (try_create_viewing_key cInj env0 store0 [1] e20 [2]).1
        = .ok (ViewingKey.new cInj env0 store0.state.owner
            store0.state.serenity_seed e20)
    ∧ (try_create_viewing_key cInj env0
          (try_create_viewing_key cInj env0 store0 [1] e20 [2]).2 [1] e20 [3]).1
        = .error "You need to use another entropy"
    ∧ (try_create_viewing_key cInj env0
          (try_create_viewing_key cInj env0 store0 [1] e20 [2]).2 [1] e20b [4]).1
        = .ok (ViewingKey.new cInj env0 store0.state.owner
            store0.state.serenity_seed e20b)
    ∧ cInj.sha256 (ViewingKey.new cInj env0 store0.state.owner
          store0.state.serenity_seed e20)
        ≠ cInj.sha256 (ViewingKey.new cInj env0 store0.state.owner
          store0.state.serenity_seed e20b) := by
  refine mint_entropy_replay cInj env0 store0 [1] [2] [3] [4] e20 e20b
    (by decide) (by decide) (by decide) (by decide) (by decide) (by decide)
    ?_ ?_ ?_
  · intro a b h
    simpa [cInj] using h
  · intro a b h
    simpa [cInj] using h
  · intro a b h
    simpa [cInj, store0] using h

/-- Claim C9: every post-initialization operation — the four execute
messages and the read-only query, succeeding or failing — leaves the
stored seed unchanged, and the used-entropy hash list after the
operation extends the list before it. -/
theorem step_preserves_seed_and_entropy (c : CryptoOps) (env : Env)
    (store : Storage) (sender : Bytes) (op : ContractOp) :
    (step c env store sender op).2.state.serenity_seed
        = store.state.serenity_seed
    ∧ ∃ suffix, (step c env store sender op).2.state.entropy_hashes
        = store.state.entropy_hashes ++ suffix := by
  cases op with
  | getStrongbox behalf key => exact ⟨rfl, [], by simp [step]⟩
  | exec msg =>
      cases msg with
      | updateStrongbox s =>
          by_cases h : c.canon sender = store.state.owner
          · exact ⟨by simp [step, execute, try_update_strongbox, h],
              [], by simp [step, execute, try_update_strongbox, h]⟩
          · exact ⟨by simp [step, execute, try_update_strongbox, h],
              [], by simp [step, execute, try_update_strongbox, h]⟩
      | transferOwnership newOwner =>
          by_cases h : c.canon sender = store.state.owner
          · exact ⟨by simp [step, execute, try_transfer_ownership, h],
              [], by simp [step, execute, try_transfer_ownership, h]⟩
          · exact ⟨by simp [step, execute, try_transfer_ownership, h],
              [], by simp [step, execute, try_transfer_ownership, h]⟩
      | revokeViewingKey viewer =>
          by_cases h : c.canon sender = store.state.owner
          · rcases hrv : read_viewing_key store (c.canon viewer) with _ | h0
            · exact ⟨by simp [step, execute, try_revoke_viewing_key, h, hrv],
                [], by simp [step, execute, try_revoke_viewing_key, h, hrv]⟩
            · exact ⟨by simp [step, execute, try_revoke_viewing_key, h, hrv,
                  revoke_viewing_key],
                [], by simp [step, execute, try_revoke_viewing_key, h, hrv,
                  revoke_viewing_key]⟩
          · exact ⟨by simp [step, execute, try_revoke_viewing_key, h],
              [], by simp [step, execute, try_revoke_viewing_key, h]⟩
      | createViewingKey viewer entropy pad =>
          by_cases h1 : entropy.length = ENTROPY_LEN
          · by_cases h2 : c.canon sender = store.state.owner
            · by_cases h3 : c.sha256 entropy ∈ store.state.entropy_hashes
              · exact ⟨by simp [step, execute, try_create_viewing_key,
                    h1, h2, h3],
                  [], by simp [step, execute, try_create_viewing_key,
                    h1, h2, h3]⟩
              · exact ⟨by simp [step, execute, try_create_viewing_key,
                    h1, h2, h3, write_viewing_key],
                  [c.sha256 entropy],
                  by simp [step, execute, try_create_viewing_key,
                    h1, h2, h3, write_viewing_key]⟩
            · exact ⟨by simp [step, execute, try_create_viewing_key, h1, h2],
                [], by simp [step, execute, try_create_viewing_key, h1, h2]⟩
          · exact ⟨by simp [step, execute, try_create_viewing_key, h1],
              [], by simp [step, execute, try_create_viewing_key, h1]⟩

end Strongbox
